import Mathlib

/-!
Shallow embedding of the `newbot` Telegram radio bot core
(files `radio.py`, `cache_service.py`, `cache.py`, `downloaders.py`,
`base.py`, `models.py`, `config.py`) and proofs settling the frozen
claims about its specification.

Conventions of the embedding:
* Python `Optional[T]` becomes `Option T`; Python truthiness of an
  optional number (`if min_duration and ...`) is modelled explicitly
  (`none` and `some 0` are both falsy).
* The sqlite cache table is a finite association list keyed by the
  cache id; `INSERT OR REPLACE` erases the key and conses a fresh row.
* The md5 of the key string is modelled by the key string itself
  (injective on the inputs considered; no collision facts are used).
* The file system is the list of paths that exist; "now" is a `Nat`
  of seconds, matching the `julianday`-difference TTL comparison.
* `random.shuffle` / `random.sample` / arbitrary `set.pop()` are
  modelled by explicit choice parameters, so every behaviour the
  Python runtime may exhibit is a behaviour of the model.
-/

namespace Newbot

/-- Track metadata, from `models.py` `TrackInfo`: exactly the fields
`title, artist, duration, source, identifier` (the frozen dataclass
accepts no others — which matters for `YouTubeDownloader.search`, see
`ytSearch`). -/
structure TrackInfo where
  title : String
  artist : String
  duration : Int
  source : String
  identifier : Option String := none
deriving DecidableEq, Repr

/-- Result of a download operation, from `models.py` `DownloadResult`. -/
structure DownloadResult where
  success : Bool
  filePath : Option String := none
  trackInfo : Option TrackInfo := none
  error : Option String := none
deriving DecidableEq, Repr

/-- Music sources, from `models.py` `Source`. -/
inductive Source where
  | youtube
  | youtubeMusic
  | internetArchive
deriving DecidableEq, Repr

/-- The `value` of a `Source` enum member. -/
def Source.value : Source → String
  | .youtube => "YouTube"
  | .youtubeMusic => "YouTube Music"
  | .internetArchive => "Internet Archive"

/-! ## Cache (`cache_service.py` and `cache.py`) -/

/-- Cache key derivation, `_get_cache_id` (identical in
`cache_service.py` and `cache.py`):
`md5(f"(source.value.lower()):(query.lower().strip())")`; md5 is
modelled as the identity on the key string. -/
def cacheId (query : String) (source : Source) : String :=
  source.value.toLower ++ ":" ++ query.toLower.trim

/-- The payload serialized into the `result_json` column: `success`,
`file_path`, the full `track_info.__dict__`, and `error`
(`cache_service.py`, `set`).  `set` only runs with a populated
`track_info`, so the stored track is non-optional. -/
structure StoredResult where
  success : Bool
  filePath : Option String
  trackInfo : TrackInfo
  error : Option String
deriving DecidableEq, Repr

/-- One row of the sqlite `cache` table. -/
structure CacheRow where
  query : String
  source : String
  stored : StoredResult
  createdAt : Nat
deriving DecidableEq, Repr

/-- The sqlite `cache` table: association list from the primary key
`id` to the row. -/
abbrev CacheStore : Type := List (String × CacheRow)

/-- Decoding a stored row back into a `DownloadResult`
(`cache_service.py`, `get`, lines 88-95). -/
def StoredResult.decode (s : StoredResult) : DownloadResult :=
  { success := s.success
    filePath := s.filePath
    trackInfo := some s.trackInfo
    error := s.error }

/-- `DELETE FROM cache WHERE id = ?`. -/
def eraseKey (cid : String) (store : CacheStore) : CacheStore :=
  List.filter (fun p => decide (p.1 ≠ cid)) store

/-- `CacheService.get` (`cache_service.py`, lines 71-99): fetches the
row by id and decodes it.  It performs no TTL comparison and no
file-existence check (it does not even receive the current time or a
view of the file system), and it never deletes a row. -/
def cacheServiceGet (store : CacheStore) (query : String) (source : Source) :
    Option DownloadResult :=
  match List.lookup (cacheId query source) store with
  | none => none
  | some row => some row.stored.decode

/-- `CacheService.set` (`cache_service.py`, lines 101-124): a no-op
unless `result.success` and `result.track_info` are populated;
otherwise `INSERT OR REPLACE` of the serialized payload. -/
def cacheServiceSet (store : CacheStore) (query : String) (source : Source)
    (result : DownloadResult) (now : Nat) : CacheStore :=
  match result.trackInfo with
  | none => store
  | some track =>
    if result.success then
      (cacheId query source,
        { query := query
          source := source.value
          stored :=
            { success := result.success
              filePath := result.filePath
              trackInfo := track
              error := result.error }
          createdAt := now }) :: eraseKey (cacheId query source) store
    else store

/-- `CacheManager.get` (`cache.py`, lines 56-104): the SQL `SELECT`
only returns the row when `(now - created_at) < TTL`; a TTL-valid row
whose non-empty `file_path` no longer exists is deleted and `none` is
returned; when the `SELECT` returns nothing the (expired) row is
deleted.  Returns the result together with the updated store. -/
def cacheManagerGet (store : CacheStore) (fs : List String) (now ttl : Nat)
    (query : String) (source : Source) : Option DownloadResult × CacheStore :=
  let cid := cacheId query source
  match List.lookup cid store with
  | some row =>
    if now - row.createdAt < ttl then
      match row.stored.filePath with
      | some fp =>
        if fp ≠ "" ∧ fp ∉ fs then (none, eraseKey cid store)
        else (some row.stored.decode, store)
      | none => (some row.stored.decode, store)
    else (none, eraseKey cid store)
  | none => (none, eraseKey cid store)

/-! ## Voting (`radio.py`, `RadioService`) -/

/-- The voting tally `self._votes : Dict[str, Set[int]]`, modelled as
an insertion-ordered association list (a Python dict iterates its keys
in insertion order); the ballot set for a genre is a duplicate-free
list of user ids. -/
abbrev Votes : Type := List (String × List Nat)

/-- `set.add(user_id)` on a ballot set. -/
def addUser (u : Nat) (l : List Nat) : List Nat :=
  if u ∈ l then l else l ++ [u]

/-- The retract pass of `register_vote` (lines 238-239):
`for g in self._votes: self._votes[g].discard(user_id)`. -/
def discardUser (u : Nat) : Votes → Votes
  | [] => []
  | (g, l) :: rest => (g, List.filter (fun x => decide (x ≠ u)) l) :: discardUser u rest

/-- The record pass of `register_vote` (lines 242-244): create the key
at the end of the dict if absent, then add the user id to its set. -/
def addVote (g : String) (u : Nat) : Votes → Votes
  | [] => [(g, addUser u [])]
  | (g0, l) :: rest =>
    if g0 = g then (g0, addUser u l) :: rest else (g0, l) :: addVote g u rest

/-- `RadioService.register_vote` (`radio.py`, lines 232-247): returns
`false` when no vote is in progress; otherwise retracts the voter's
previous ballot from every genre and records the new one (the genre is
never compared against the sampled candidates). -/
def registerVote (voteInProgress : Bool) (votes : Votes) (genre : String)
    (userId : Nat) : Bool × Votes :=
  if voteInProgress then (true, addVote genre userId (discardUser userId votes))
  else (false, votes)

/-- Dict key access `self._votes[genre]`, as an option. -/
def getBallots (g : String) : Votes → Option (List Nat)
  | [] => none
  | (g0, l) :: rest => if g0 = g then some l else getBallots g rest

/-- One comparison step of Python `max(iterable, key=f)`: the later
element replaces the current best only when its key is strictly
greater. -/
def voteStep (best q : String × List Nat) : String × List Nat :=
  if q.2.length > best.2.length then q else best

/-- Python `max(iterable, key=f)`: the first element attaining the
maximal key, folding with strict-greater replacement. -/
def maxByBallots (p : String × List Nat) (rest : Votes) : String × List Nat :=
  List.foldl voteStep p rest

/-- The tally resolution of `RadioService.end_genre_vote` (`radio.py`,
lines 271-275): `max(self._votes, key=lambda g: len(self._votes[g]))`
when any ballot exists, and the literal default `"rock"` when the
tally dict is empty.  The sampled candidates `_current_vote_genres`
are not consulted. -/
def pickWinner (votes : Votes) : String :=
  match votes with
  | [] => "rock"
  | p :: rest => (maxByBallots p rest).1

/-! ## Mode state and vote start (`radio.py`) -/

/-- The mode/vote fields of `RadioService` touched by
`start_genre_vote`. -/
structure RadioModeState where
  artistMode : Option String
  winningGenre : Option String
  currentMood : Option String
  modeEndTime : Option Nat
  voteInProgress : Bool
  votes : Votes
  currentVoteGenres : List String

/-- Lexicographic order on character lists by code point, modelling
Python string comparison. -/
def charsLe : List Char → List Char → Bool
  | [], _ => true
  | _ :: _, [] => false
  | a :: as, b :: bs =>
    if a.toNat < b.toNat then true
    else if b.toNat < a.toNat then false
    else charsLe as bs

/-- Lexicographic order on strings. -/
def strLe (a b : String) : Bool := charsLe a.toList b.toList

/-- Insertion sort of strings, modelling Python `sorted`. -/
def insertSorted (s : String) : List String → List String
  | [] => [s]
  | x :: rest => if strLe s x then s :: x :: rest else x :: insertSorted s rest

/-- Python `sorted` on a list of strings. -/
def sortStrings : List String → List String
  | [] => []
  | x :: rest => insertSorted x (sortStrings rest)

/-- The state transition of `RadioService.start_genre_vote`
(`radio.py`, lines 198-212): a no-op when a vote is already running;
otherwise opens an empty tally, clears the artist mode and the mood,
and installs the sorted candidate sample (`sample` stands for the
outcome of `random.sample(all_genres, sample_size)`).  Neither
`winning_genre` nor `mode_end_time` is written. -/
def startGenreVote (s : RadioModeState) (sample : List String) : RadioModeState :=
  if s.voteInProgress then s
  else
    { s with
      voteInProgress := true
      votes := []
      artistMode := none
      currentMood := none
      currentVoteGenres := sortStrings sample }

/-! ## Playlist buffer and recently-played set (`radio.py`, `_radio_loop`) -/

/-- Popping the next track (`radio.py`, lines 396-401): when the
playlist is empty the loop `continue`s without popping (modelled as
`none`); otherwise `self._playlist.pop(0)` removes and returns the
head.  The function is deterministic: no randomness enters the
choice. -/
def popNextTrack (playlist : List TrackInfo) : Option (TrackInfo × List TrackInfo) :=
  match playlist with
  | [] => none
  | t :: rest => some (t, rest)

/-- Marking a track played (`radio.py`, lines 405-407):
`self._played_ids.add(id)` then, when the size exceeds 500,
`self._played_ids.pop()`.  The CPython set is unordered and `pop`
removes an arbitrary element; the model keeps the elements in
insertion order (so that "oldest" is meaningful) and takes the popped
position from an explicit choice function `choose`, covering every
behaviour the runtime may exhibit. -/
def markPlayed {α : Type} [DecidableEq α] (choose : List α → Nat)
    (ids : List α) (x : α) : List α :=
  let ids1 := if x ∈ ids then ids else ids ++ [x]
  if ids1.length > 500 then ids1.eraseIdx (choose ids1 % ids1.length) else ids1

/-- A choice function for `markPlayed` under which `set.pop()` always
removes the most recently inserted element — one of the behaviours an
unordered-set pop is allowed to have. -/
def chooseLast {α : Type} (l : List α) : Nat := l.length - 1

/-! ## Scheduler error budget (`radio.py`, `_radio_loop`) -/

/-- The observable outcome of one iteration of `_radio_loop` for the
error budget: a successful download (line 412), a failed download
(line 439), a playlist fetch that returned nothing
(`_fetch_playlist`, line 357), or an unexpected exception
(line 448). -/
inductive RadioEvent where
  | downloadOk
  | downloadFail
  | emptyFetch
  | unexpectedError
deriving DecidableEq, Repr

/-- Effect of one iteration outcome on `self.error_count`:
reset to `0` on success (line 413), `+= 1` on each failure
(lines 357, 441, 450). -/
def radioStepCount : RadioEvent → Nat → Nat
  | .downloadOk, _ => 0
  | .downloadFail, n => n + 1
  | .emptyFetch, n => n + 1
  | .unexpectedError, n => n + 1

/-- The `while self._is_on and self.error_count < 10` loop (line 385)
with `_is_on` held true, consuming one iteration outcome per pass.
Returns the final `error_count` and the outcomes never executed
because the loop condition failed. -/
def radioRun : List RadioEvent → Nat → Nat × List RadioEvent
  | [], n => (n, [])
  | e :: rest, n =>
    if n < 10 then radioRun rest (radioStepCount e n) else (n, e :: rest)

/-- The post-loop fatal report (`radio.py`, lines 453-455): the
"stopped due to repeated errors" status edit is emitted exactly once,
after the loop, iff the budget was exhausted. -/
def fatalNotifications (finalCount : Nat) : Nat :=
  if 10 ≤ finalCount then 1 else 0

/-- A whole scheduler run from a fresh error budget: final count,
unexecuted iterations, number of fatal notifications. -/
def radioLoop (events : List RadioEvent) : Nat × List RadioEvent × Nat :=
  let r := radioRun events 0
  (r.1, r.2, fatalNotifications r.1)

/-! ## Download retry (`downloaders.py`, `BaseDownloader.download_with_retry`) -/

/-- Outcome of one `await self.download(query)` call: either it
returned a `DownloadResult`, or it raised (the raised message is
recorded only to show it never propagates). -/
inductive Attempt where
  | ok : DownloadResult → Attempt
  | exnRaised : String → Attempt
deriving DecidableEq, Repr

/-- Contiguous-sublist test on character lists, used to model the
Python substring operator `in`. -/
def charsInfix (needle : List Char) : List Char → Bool
  | [] => needle.isEmpty
  | c :: rest => List.isPrefixOf needle (c :: rest) || charsInfix needle rest

/-- The rate-limit test of line 56: `"503" in result.error`. -/
def has503 (r : DownloadResult) : Bool :=
  match r.error with
  | some e => charsInfix "503".toList e.toList
  | none => false

/-- The summary failure returned after the loop (lines 66-69). -/
def retryExhausted (maxRetries : Nat) : DownloadResult :=
  { success := false
    error := some ("Не удалось скачать после " ++ toString maxRetries ++ " попыток.") }

/-- The `for attempt in range(MAX_RETRIES)` loop of
`download_with_retry` (`downloaders.py`, lines 48-69).  `outcome i`
is what the `i`-th (0-based) download attempt does; `rem` is the
number of loop passes left and `i` the index of the next attempt.
Besides the final result it returns the trace of sleeps: one entry
per attempt made, recording the seconds slept after that attempt
(the 60-second-scaled 503 pause of line 58 plus the
`RETRY_DELAY_S * (attempt + 1)` pause of line 64, the latter only
when the attempt is not the last).  A successful attempt returns
immediately; an exception is caught and counts as an attempt. -/
def retryGo (maxRetries base : Nat) (outcome : Nat → Attempt) :
    Nat → Nat → DownloadResult × List Nat
  | 0, _ => (retryExhausted maxRetries, [])
  | rem + 1, i =>
    match outcome i with
    | .ok r =>
      if r.success then (r, [0])
      else
        let extra := if has503 r then 60 * (i + 1) else 0
        let reg := if i + 1 < maxRetries then base * (i + 1) else 0
        let t := retryGo maxRetries base outcome rem (i + 1)
        (t.1, (extra + reg) :: t.2)
    | .exnRaised _ =>
      let reg := if i + 1 < maxRetries then base * (i + 1) else 0
      let t := retryGo maxRetries base outcome rem (i + 1)
      (t.1, reg :: t.2)

/-- `BaseDownloader.download_with_retry` with `MAX_RETRIES` and
`RETRY_DELAY_S` as parameters (`settings.MAX_RETRIES = 5`,
`settings.RETRY_DELAY_S = 5` in `config.py`): result plus the
per-attempt sleep trace (its length is the number of attempts
made). -/
def downloadWithRetry (maxRetries base : Nat) (outcome : Nat → Attempt) :
    DownloadResult × List Nat :=
  retryGo maxRetries base outcome maxRetries 0

/-- Whether a single attempt counts as a failure for the retry loop:
an exception, or a result without `success`. -/
def attemptFailed : Attempt → Bool
  | .ok r => !r.success
  | .exnRaised _ => true

/-! ## Search filtering (`downloaders.py`) -/

/-- One flat-extracted yt-dlp search entry, with the fields the
filtering code of `YouTubeDownloader.search` reads. -/
structure YtEntry where
  id : Option String
  title : Option String
  duration : Option Int
  viewCount : Option Int
  likeCount : Option Int
  categories : Option (List String)
  isLive : Bool
deriving DecidableEq, Repr

/-- Python truthiness of an optional string (`None` and `""` are
falsy). -/
def strTruthy : Option String → Bool
  | none => false
  | some s => s ≠ ""

/-- Python truthiness of an optional number (`None` and `0` are
falsy): this is the test `if min_duration and ...` of lines 367/370
performs on a filter bound. -/
def intTruthy : Option Int → Bool
  | none => false
  | some v => v ≠ 0

/-- The keyword denylist of `YouTubeDownloader.search` (line 318). -/
def ytBannedWords : List String :=
  ["ai cover", "suno", "udio", "ai version", "karaoke", "караоке",
   "ии кавер", "сгенерировано ии", "ai generated"]

/-- Substring test on strings (Python `banned in title_lower`). -/
def containsSub (needle haystack : String) : Bool :=
  charsInfix needle.toList haystack.toList

/-- Python `str.lower()`, modelled per character (ASCII case fold). -/
def strLower (s : String) : String :=
  String.mk (List.map Char.toLower s.data)

/-- Whether an entry survives the stop-word pass (lines 323-329):
it must have a truthy title whose lower-casing contains no banned
word. -/
def ytKeepByWords (e : YtEntry) : Bool :=
  match e.title with
  | none => false
  | some t =>
    t ≠ "" && !(List.any ytBannedWords (fun b => containsSub b (strLower t)))

/-- Whether an entry has the `"Music"` category (lines 342-345). -/
def ytIsMusic (e : YtEntry) : Bool :=
  match e.categories with
  | some cs => List.contains cs "Music"
  | none => false

/-- The skip conditions of the result loop (lines 353-380): an entry
reaches the `results.append(TrackInfo(...))` call only when it is not
live, has a truthy id and title, and passes every truthy
duration/views/likes bound.  `duration = int(raw_duration or 0)` maps
a missing (or zero) raw duration to `0`. -/
def ytPasses (minDuration maxDuration minViews minLikes : Option Int)
    (e : YtEntry) : Bool :=
  if e.isLive then false
  else if !(strTruthy e.id && strTruthy e.title) then false
  else
    let duration := e.duration.getD 0
    if intTruthy minDuration && duration < minDuration.getD 0 then false
    else if intTruthy maxDuration && duration > maxDuration.getD 0 then false
    else if intTruthy minViews &&
        (e.viewCount.isNone || decide (e.viewCount.getD 0 < minViews.getD 0)) then false
    else if intTruthy minLikes &&
        (e.likeCount.isNone || decide (e.likeCount.getD 0 < minLikes.getD 0)) then false
    else true

/-- `YouTubeDownloader.search` (`downloaders.py`, lines 289-394) after
extraction returned `entries`: the stop-word pass (falling back to the
original list when it removed everything), the `"Music"`-category pass
(same fallback), then the result loop.  The first entry that passes
every filter reaches
`results.append(TrackInfo(..., view_count=..., like_count=...))`
(lines 382-390) — but `models.TrackInfo` has no `view_count` or
`like_count` field, so that constructor call raises `TypeError`, the
`except Exception` of line 392 catches it, and the function returns
the empty list.  When no entry passes, the loop completes and returns
the still-empty `results`.  Either way the returned list is empty. -/
def ytSearch (minDuration maxDuration minViews minLikes : Option Int)
    (entries : List YtEntry) : List TrackInfo :=
  let filtered := List.filter ytKeepByWords entries
  let finalEntries := if filtered.isEmpty && !entries.isEmpty then entries else filtered
  let musicEntries := List.filter ytIsMusic finalEntries
  let musicEntries := if musicEntries.isEmpty then finalEntries else musicEntries
  if List.any musicEntries (ytPasses minDuration maxDuration minViews minLikes) then
    []
  else
    []

/-- One Internet Archive search document, with the fields the
filtering code of `InternetArchiveDownloader.search` reads. -/
structure IaDoc where
  identifier : Option String
  title : Option String
  creator : Option String
  length : Int
deriving DecidableEq, Repr

/-- The per-document body of `InternetArchiveDownloader.search`
(`downloaders.py`, lines 430-445): skip the document when its duration
is non-positive or fails a truthy bound; otherwise build the
`TrackInfo`. -/
def iaConsider (minDuration maxDuration : Option Int) (doc : IaDoc) :
    Option TrackInfo :=
  let duration := doc.length
  if duration ≤ 0 ∨
      (intTruthy minDuration ∧ duration < minDuration.getD 0) ∨
      (intTruthy maxDuration ∧ duration > maxDuration.getD 0) then none
  else
    some
      { title := doc.title.getD "Unknown"
        artist := doc.creator.getD "Unknown"
        duration := duration
        source := Source.internetArchive.value
        identifier := doc.identifier }

/-- `InternetArchiveDownloader.search` (`downloaders.py`, lines
413-447) after the API response produced `docs`. -/
def iaSearch (minDuration maxDuration : Option Int) (docs : List IaDoc) :
    List TrackInfo :=
  List.filterMap (iaConsider minDuration maxDuration) docs

/-! ## Concrete fixtures used by counterexamples and witnesses -/

/-- A concrete track. -/
def trackA : TrackInfo :=
  { title := "Alpha", artist := "X", duration := 180, source := "YouTube",
    identifier := some "aaaaaaaaaaa" }

/-- A second, distinct concrete track. -/
def trackB : TrackInfo :=
  { title := "Beta", artist := "Y", duration := 200, source := "YouTube",
    identifier := some "bbbbbbbbbbb" }

/-- A cached payload whose artifact path `gone.mp3` will be taken as
deleted from disk. -/
def staleStored : StoredResult :=
  { success := true, filePath := some "gone.mp3", trackInfo := trackA,
    error := none }

/-- A cache row created at time `0` holding `staleStored`. -/
def staleRow : CacheRow :=
  { query := "q", source := "YouTube", stored := staleStored, createdAt := 0 }

/-- A cache store holding exactly the stale row under the key of
`("q", YouTube)`. -/
def staleStore : CacheStore :=
  [(cacheId "q" Source.youtube, staleRow)]

/-- A successful download result with a populated track, for the cache
round-trip. -/
def roundResult : DownloadResult :=
  { success := true, filePath := some "downloads/aaaaaaaaaaa.mp3",
    trackInfo := some trackA, error := none }

/-- A flat search entry with the `"Music"` category whose raw duration
is missing, so the loop computes `duration = int(None or 0) = 0`. -/
def zeroDurEntry : YtEntry :=
  { id := some "abcdefghijk", title := some "Song", duration := none,
    viewCount := none, likeCount := none, categories := some ["Music"],
    isLive := false }

/-- An Internet Archive search document with a four-minute length. -/
def iaDocGood : IaDoc :=
  { identifier := some "ia-123", title := some "Blue", creator := some "Misha",
    length := 240 }

/-- The track built from `iaDocGood`. -/
def iaTrackGood : TrackInfo :=
  { title := "Blue", artist := "Misha", duration := 240,
    source := "Internet Archive", identifier := some "ia-123" }

/-- A well-formed three-minute flat search entry that passes every
filter of the result loop. -/
def ytEntryGood : YtEntry :=
  { id := some "gooooooood1", title := some "Good Song", duration := some 180,
    viewCount := none, likeCount := none, categories := some ["Music"],
    isLive := false }

/-- The recently-played set after 501 distinct identifiers are marked,
under the allowed pop behaviour that removes the most recently
inserted element. -/
def playedAfter501 : List Nat :=
  List.foldl (markPlayed chooseLast) [] (List.range 501)

/-- An attempt oracle on which every download attempt raises. -/
def exnOutcome : Nat → Attempt :=
  fun _ => Attempt.exnRaised "boom"

/-- A concrete mode state with no vote running, a winning genre and a
set expiry. -/
def voteState0 : RadioModeState :=
  { artistMode := some "Queen", winningGenre := some "jazz",
    currentMood := some "спокойное", modeEndTime := some 360000,
    voteInProgress := false, votes := [], currentVoteGenres := [] }

/-! ## Theorems -/

/-- C7 counterexample: popping the next track from the two-element
buffer `[trackA, trackB]` deterministically removes and returns the
head `trackA`; `popNextTrack` is a pure function of the buffer, so no
execution returns the non-head element `trackB`, refuting the claim
that a candidate is chosen uniformly at random and that an element
other than the head can be returned. -/
theorem popNextTrack_not_random :
    popNextTrack [trackA, trackB] = some (trackA, [trackB]) ∧ trackA ≠ trackB := by
  exact ⟨rfl, by decide⟩

/-- C7 (amended): popping the next track removes and returns the head
of the playlist buffer — strict FIFO order — and yields `none` on an
empty buffer. -/
theorem popNextTrack_fifo :
    popNextTrack ([] : List TrackInfo) = none ∧
    ∀ (t : TrackInfo) (rest : List TrackInfo),
      popNextTrack (t :: rest) = some (t, rest) := by
  exact ⟨rfl, fun t rest => rfl⟩

/-- C10: when no vote is already running, `start_genre_vote`
immediately clears the artist mode and the mood, opens a vote with an
empty tally, and leaves both the winning genre and the mode expiry
time untouched. -/
theorem startGenreVote_frame (s : RadioModeState) (sample : List String)
    (h : s.voteInProgress = false) :
    (startGenreVote s sample).artistMode = none ∧
    (startGenreVote s sample).currentMood = none ∧
    (startGenreVote s sample).winningGenre = s.winningGenre ∧
    (startGenreVote s sample).modeEndTime = s.modeEndTime ∧
    (startGenreVote s sample).voteInProgress = true ∧
    (startGenreVote s sample).votes = [] := by
  simp [startGenreVote, h]

/-- C10 witness: the frame property evaluated on the concrete state
`voteState0`. -/
theorem startGenreVote_frame_witness :
    voteState0.voteInProgress = false ∧
    (startGenreVote voteState0 ["rock", "jazz"]).artistMode = none ∧
    (startGenreVote voteState0 ["rock", "jazz"]).currentMood = none ∧
    (startGenreVote voteState0 ["rock", "jazz"]).winningGenre = voteState0.winningGenre ∧
    (startGenreVote voteState0 ["rock", "jazz"]).modeEndTime = voteState0.modeEndTime := by
  have h := startGenreVote_frame voteState0 ["rock", "jazz"] rfl
  exact ⟨rfl, h.1, h.2.1, h.2.2.1, h.2.2.2.1⟩

/-- Helper for C1: running the loop on a block of non-success
iteration outcomes that brings the budget exactly to the ceiling stops
the loop with the remaining outcomes unexecuted. -/
theorem radioRun_fail_block (events : List RadioEvent) :
    ∀ (n : Nat) (tail : List RadioEvent),
      (∀ e ∈ events, e ≠ RadioEvent.downloadOk) →
      n + events.length = 10 →
      radioRun (events ++ tail) n = (10, tail) := by
  induction events with
  | nil =>
    intro n tail _ hlen
    simp only [List.length_nil, Nat.add_zero] at hlen
    subst hlen
    cases tail with
    | nil => simp [radioRun]
    | cons e rest => simp [radioRun]
  | cons e rest ih =>
    intro n tail hno hlen
    have hn : n < 10 := by
      simp only [List.length_cons] at hlen
      omega
    have hstep : radioStepCount e n = n + 1 := by
      have he : e ≠ RadioEvent.downloadOk := hno e (List.mem_cons_self e rest)
      cases e with
      | downloadOk => exact absurd rfl he
      | downloadFail => rfl
      | emptyFetch => rfl
      | unexpectedError => rfl
    have htail : radioRun (rest ++ tail) (n + 1) = (10, tail) := by
      apply ih (n + 1) tail (fun x hx => hno x (List.mem_cons_of_mem e hx))
      simp only [List.length_cons] at hlen
      omega
    simp [radioRun, hn, hstep, htail]

/-- C1: the scheduler's error counter is reset to zero by a successful
download and incremented by a failed download and by an empty playlist
fetch; a run of 10 consecutive non-success iteration outcomes from a
fresh budget stops the loop — any further queued outcomes are never
executed — and emits exactly one fatal "stopped due to repeated
errors" notification. -/
theorem radioLoop_error_budget :
    (∀ n, radioStepCount RadioEvent.downloadOk n = 0) ∧
    (∀ n, radioStepCount RadioEvent.downloadFail n = n + 1) ∧
    (∀ n, radioStepCount RadioEvent.emptyFetch n = n + 1) ∧
    (∀ (events tail : List RadioEvent),
      events.length = 10 →
      (∀ e ∈ events, e ≠ RadioEvent.downloadOk) →
      radioLoop (events ++ tail) = (10, tail, 1)) := by
  refine ⟨fun _ => rfl, fun _ => rfl, fun _ => rfl, ?_⟩
  intro events tail hlen hno
  have h := radioRun_fail_block events 0 tail hno (by omega)
  simp [radioLoop, h, fatalNotifications]

/-- C1 witness: ten consecutive failed downloads from a fresh budget,
with one more iteration queued behind them: the loop stops at budget
10, never executes the queued iteration, and emits exactly one fatal
notification. -/
theorem radioLoop_error_budget_witness :
    (List.replicate 10 RadioEvent.downloadFail).length = 10 ∧
    radioLoop (List.replicate 10 RadioEvent.downloadFail ++ [RadioEvent.downloadOk]) =
      (10, [RadioEvent.downloadOk], 1) := by
  exact ⟨by decide,
    radioLoop_error_budget.2.2.2 (List.replicate 10 RadioEvent.downloadFail)
      [RadioEvent.downloadOk] (by decide) (by decide)⟩

/-- Helper: looking a key up right after erasing it finds nothing. -/
theorem lookup_eraseKey (cid : String) (store : CacheStore) :
    List.lookup cid (eraseKey cid store) = none := by
  induction store with
  | nil => rfl
  | cons p rest ih =>
    obtain ⟨k, v⟩ := p
    simp only [eraseKey] at ih ⊢
    rw [List.filter_cons]
    by_cases h : k = cid
    · have hd : decide ((k, v).1 ≠ cid) = false := by simp [h]
      rw [hd]
      simpa using ih
    · have hd : decide ((k, v).1 ≠ cid) = true := by simp [h]
      rw [hd]
      have hk : (cid == k) = false := by simp [Ne.symm h]
      simpa [List.lookup, hk] using ih

/-- C5: for a successful result with a populated track, `cache.set`
followed immediately by `cache.get` for the same `(query, source)`
pair returns the stored result exactly, under the claim's provisos
that the referenced artifact is still on disk and the TTL has not
elapsed (`cache_service.py` in fact guarantees this without either
proviso, since its `get` checks neither). -/
theorem cacheService_roundtrip (store : CacheStore) (q : String) (s : Source)
    (r : DownloadResult) (t : TrackInfo) (fs : List String) (now later ttl : Nat)
    (hsucc : r.success = true) (htrack : r.trackInfo = some t)
    (hfile : ∀ fp, r.filePath = some fp → fp ∈ fs)
    (httl : later - now < ttl) :
    cacheServiceGet (cacheServiceSet store q s r now) q s = some r := by
  cases r with
  | mk success filePath trackInfo error =>
    simp only at hsucc htrack
    subst hsucc
    subst htrack
    simp [cacheServiceSet, cacheServiceGet, StoredResult.decode, List.lookup]

/-- C5 witness: the round trip evaluated on a concrete store, query
and successful result whose artifact is on disk and whose TTL is
fresh. -/
theorem cacheService_roundtrip_witness :
    roundResult.success = true ∧
    roundResult.trackInfo = some trackA ∧
    (3 : Nat) - 0 < 604800 ∧
    cacheServiceGet (cacheServiceSet [] "Query " Source.youtube roundResult 0)
      "Query " Source.youtube = some roundResult := by
  refine ⟨rfl, rfl, by decide, ?_⟩
  exact cacheService_roundtrip [] "Query " Source.youtube roundResult trackA
    ["downloads/aaaaaaaaaaa.mp3"] 0 3 604800 rfl rfl
    (by intro fp h; simp only [roundResult] at h; injection h with h; simp [h])
    (by decide)

/-- C2 counterexample: the cache get actually wired into the
downloaders (`CacheService.get`) returns the stored entry even though
the artifact `gone.mp3` it references is absent from every file
system view (the function receives no view of the disk and no clock,
so it cannot perform the claimed checks), and it deletes nothing, so
a second get returns the same stale hit. -/
theorem cacheServiceGet_stale_hit :
    cacheServiceGet staleStore "q" Source.youtube = some staleStored.decode ∧
    staleStored.filePath = some "gone.mp3" ∧
    "gone.mp3" ∉ ([] : List String) ∧
    cacheServiceGet staleStore "q" Source.youtube ≠ none := by
  have h1 : cacheServiceGet staleStore "q" Source.youtube = some staleStored.decode := by
    simp [cacheServiceGet, staleStore, staleRow, List.lookup]
  refine ⟨h1, rfl, by decide, ?_⟩
  rw [h1]
  exact fun h => Option.noConfusion h

/-- C2 (amended): the legacy `CacheManager.get` of `cache.py` behaves
as claimed — a TTL-expired entry, or one whose non-empty artifact path
no longer exists, yields `none`, the stale row is deleted, and a
second get for the same pair again yields `none` — while the
`CacheService.get` of `cache_service.py`, the cache actually injected
into the downloaders, returns whatever entry is stored for the key
regardless of TTL or artifact existence. -/
theorem cacheGet_staleness (store : CacheStore) (fs : List String)
    (now ttl : Nat) (q : String) (s : Source) (row : CacheRow) (fp : String)
    (hrow : List.lookup (cacheId q s) store = some row) :
    (¬ now - row.createdAt < ttl →
      cacheManagerGet store fs now ttl q s =
        (none, eraseKey (cacheId q s) store) ∧
      (cacheManagerGet (eraseKey (cacheId q s) store) fs now ttl q s).1 = none) ∧
    (now - row.createdAt < ttl → row.stored.filePath = some fp → fp ≠ "" →
      fp ∉ fs →
      cacheManagerGet store fs now ttl q s =
        (none, eraseKey (cacheId q s) store) ∧
      (cacheManagerGet (eraseKey (cacheId q s) store) fs now ttl q s).1 = none) ∧
    cacheServiceGet store q s = some row.stored.decode := by
  refine ⟨?_, ?_, ?_⟩
  · intro hexp
    constructor
    · simp [cacheManagerGet, hrow, hexp]
    · simp [cacheManagerGet, lookup_eraseKey]
  · intro hvalid hfp hne hmiss
    constructor
    · simp [cacheManagerGet, hrow, hvalid, hfp, hne, hmiss]
    · simp [cacheManagerGet, lookup_eraseKey]
  · simp [cacheServiceGet, hrow]

/-- C2 witness: the amended claim evaluated on the concrete stale
store, an empty disk and a fresh clock: the legacy manager get misses
and purges (both on expiry and on the missing artifact), while the
wired service get returns the stale entry. -/
theorem cacheGet_staleness_witness :
    List.lookup (cacheId "q" Source.youtube) staleStore = some staleRow ∧
    cacheManagerGet staleStore [] 5 604800 "q" Source.youtube =
      (none, eraseKey (cacheId "q" Source.youtube) staleStore) ∧
    cacheManagerGet staleStore [] 1000000 3600 "q" Source.youtube =
      (none, eraseKey (cacheId "q" Source.youtube) staleStore) ∧
    cacheServiceGet staleStore "q" Source.youtube = some staleRow.stored.decode := by
  have hrow : List.lookup (cacheId "q" Source.youtube) staleStore = some staleRow := by
    simp [staleStore, List.lookup]
  have hmiss := cacheGet_staleness staleStore [] 5 604800 "q" Source.youtube
    staleRow "gone.mp3" hrow
  have hexp := cacheGet_staleness staleStore [] 1000000 3600 "q" Source.youtube
    staleRow "gone.mp3" hrow
  refine ⟨hrow, ?_, ?_, hmiss.2.2⟩
  · exact (hmiss.2.1 (by decide) (by decide) (by decide) (by decide)).1
  · exact (hexp.1 (by decide)).1

/-- Helper: a user is a member of their own ballot after `set.add`. -/
theorem mem_addUser_self (u : Nat) (l : List Nat) : u ∈ addUser u l := by
  by_cases h : u ∈ l
  · simpa [addUser, h] using h
  · simp [addUser, h]

/-- Helper: after the record pass of `register_vote`, the chosen genre
holds a ballot containing the voter. -/
theorem getBallots_addVote (g : String) (u : Nat) (vs : Votes) :
    ∃ l, getBallots g (addVote g u vs) = some l ∧ u ∈ l := by
  induction vs with
  | nil =>
    refine ⟨addUser u [], ?_, mem_addUser_self u []⟩
    simp [addVote, getBallots]
  | cons p rest ih =>
    obtain ⟨g0, l0⟩ := p
    by_cases h : g0 = g
    · exact ⟨addUser u l0, by simp [addVote, h, getBallots], mem_addUser_self u l0⟩
    · obtain ⟨l, hl, hu⟩ := ih
      exact ⟨l, by simp [addVote, h, getBallots, hl], hu⟩

/-- C9: whenever a vote is in progress, `register_vote` accepts any
genre string whatsoever — no comparison against the sampled candidates
occurs — returning `true` and recording the voter's ballot under that
genre; moreover a tally holding only that ballot makes the arbitrary
genre win the resolution. -/
theorem registerVote_no_candidate_check (inProg : Bool) (votes : Votes)
    (g : String) (u : Nat) (h : inProg = true) :
    (registerVote inProg votes g u).1 = true ∧
    (∃ l, getBallots g (registerVote inProg votes g u).2 = some l ∧ u ∈ l) ∧
    registerVote true [] g u = (true, [(g, [u])]) ∧
    pickWinner [(g, [u])] = g := by
  subst h
  refine ⟨rfl, ?_, ?_, rfl⟩
  · simpa [registerVote] using
      getBallots_addVote g u (discardUser u votes)
  · simp [registerVote, discardUser, addVote, addUser]

/-- C9 witness: with a vote running over the sorted sample of
`["rock", "jazz"]`, user 7 votes for `"polka"` — a genre not among the
candidates — and the ballot is accepted, recorded, and able to win. -/
theorem registerVote_no_candidate_check_witness :
    "polka" ∉ sortStrings ["rock", "jazz"] ∧
    (registerVote true [("rock", [1])] "polka" 7).1 = true ∧
    registerVote true [] "polka" 7 = (true, [("polka", [7])]) ∧
    pickWinner [("polka", [7])] = "polka" := by
  have h := registerVote_no_candidate_check true [("rock", [1])] "polka" 7 rfl
  exact ⟨by decide, h.1, h.2.2.1, h.2.2.2⟩

/-- Helper: the fold of `voteStep` returns its seed or a member of the
folded list. -/
theorem foldl_voteStep_mem (rest : Votes) :
    ∀ p, List.foldl voteStep p rest = p ∨ List.foldl voteStep p rest ∈ rest := by
  induction rest with
  | nil => exact fun p => Or.inl rfl
  | cons q rest ih =>
    intro p
    rw [List.foldl_cons]
    rcases ih (voteStep p q) with h | h
    · rw [h]
      unfold voteStep
      split
      · exact Or.inr (List.mem_cons_self _ _)
      · exact Or.inl rfl
    · exact Or.inr (List.mem_cons_of_mem _ h)

/-- Helper: the fold of `voteStep` dominates its seed and every member
of the folded list in ballot count. -/
theorem foldl_voteStep_ge (rest : Votes) :
    ∀ p, p.2.length ≤ (List.foldl voteStep p rest).2.length ∧
      ∀ q ∈ rest, q.2.length ≤ (List.foldl voteStep p rest).2.length := by
  induction rest with
  | nil =>
    intro p
    exact ⟨le_refl _, fun q hq => absurd hq (List.not_mem_nil q)⟩
  | cons q rest ih =>
    intro p
    rw [List.foldl_cons]
    obtain ⟨h1, h2⟩ := ih (voteStep p q)
    have hpq : p.2.length ≤ (voteStep p q).2.length := by
      unfold voteStep
      split
      · next hgt => exact le_of_lt hgt
      · exact le_refl _
    have hqq : q.2.length ≤ (voteStep p q).2.length := by
      unfold voteStep
      split
      · exact le_refl _
      · next hle => exact Nat.le_of_not_lt hle
    refine ⟨le_trans hpq h1, ?_⟩
    intro r hr
    rcases List.mem_cons.mp hr with hrq | hr'
    · subst hrq
      exact le_trans hqq h1
    · exact h2 r hr'

/-- C3 counterexample: resolving a vote with an entirely empty tally
yields the hard-coded default `"rock"` even when the candidates
sampled for the vote are `["jazz", "blues"]` — not a uniformly random
member of the sample; and in the equal-ballot tie over the sorted
candidates `["jazz", "rock"]`, the winner is `"rock"` — the genre
whose first ballot arrived first — not the first candidate in
candidate order. -/
theorem endVote_fixed_default :
    pickWinner [] = "rock" ∧
    "rock" ∉ sortStrings ["jazz", "blues"] ∧
    sortStrings ["rock", "jazz"] = ["jazz", "rock"] ∧
    pickWinner [("rock", [1]), ("jazz", [2])] = "rock" := by
  refine ⟨rfl, by decide, by decide, rfl⟩

/-- C3 (amended): vote resolution picks the genre whose ballot set is
largest (for the tally of rock mapping to voters 1 and 2 and jazz to
voter 3 it picks rock), ties are broken in favour of the
first-encountered entry in tally-insertion (ballot-arrival) order,
and an entirely empty tally falls back to the fixed default genre
`"rock"` rather than a random sampled candidate. -/
theorem pickWinner_spec :
    pickWinner [("rock", [1, 2]), ("jazz", [3])] = "rock" ∧
    pickWinner [] = "rock" ∧
    (∀ (p : String × List Nat) (rest : Votes),
      maxByBallots p rest ∈ p :: rest ∧
      (∀ q ∈ p :: rest, q.2.length ≤ (maxByBallots p rest).2.length) ∧
      pickWinner (p :: rest) = (maxByBallots p rest).1) ∧
    (∀ (p q : String × List Nat) (rest : Votes),
      q.2.length ≤ p.2.length →
      maxByBallots p (q :: rest) = maxByBallots p rest) := by
  refine ⟨rfl, rfl, ?_, ?_⟩
  · intro p rest
    refine ⟨?_, ?_, rfl⟩
    · simp only [maxByBallots]
      rcases foldl_voteStep_mem rest p with h | h
      · rw [h]
        exact List.mem_cons_self _ _
      · exact List.mem_cons_of_mem _ h
    · intro q hq
      obtain ⟨h1, h2⟩ := foldl_voteStep_ge rest p
      simp only [maxByBallots]
      rcases List.mem_cons.mp hq with hrq | hr'
      · rw [hrq]
        exact h1
      · exact h2 q hr'
  · intro p q rest hle
    have hstep : voteStep p q = p := by
      unfold voteStep
      exact if_neg (Nat.not_lt.mpr hle)
    simp only [maxByBallots, List.foldl_cons, hstep]

/-- C3 witness: the amended resolution evaluated on concrete tallies:
the rock-majority tally resolves to rock, the winner dominates the
jazz entry, and a tie keeps the earlier tally entry. -/
theorem pickWinner_spec_witness :
    pickWinner [("rock", [1, 2]), ("jazz", [3])] = "rock" ∧
    maxByBallots ("rock", [1, 2]) [("jazz", [3])] ∈
      ([("rock", [1, 2]), ("jazz", [3])] : Votes) ∧
    ("jazz", [3]).2.length ≤ (maxByBallots ("rock", [1, 2]) [("jazz", [3])]).2.length ∧
    maxByBallots ("pop", [1]) [("indie", [2])] = maxByBallots ("pop", [1]) [] := by
  have h := pickWinner_spec
  exact ⟨h.1, (h.2.2.1 ("rock", [1, 2]) [("jazz", [3])]).1,
    (h.2.2.1 ("rock", [1, 2]) [("jazz", [3])]).2.1 ("jazz", [3]) (by decide),
    h.2.2.2 ("pop", [1]) ("indie", [2]) [] (by decide)⟩

/-- Helper: erasing at the index of the appended last element
recovers the original list. -/
theorem eraseIdx_concat {α : Type} (a : α) :
    ∀ l : List α, (l ++ [a]).eraseIdx l.length = l := by
  intro l
  induction l with
  | nil => rfl
  | cons x rest ih =>
    show ((x :: rest) ++ [a]).eraseIdx (rest.length + 1) = x :: rest
    rw [List.cons_append, List.eraseIdx_cons_succ, ih]

/-- Helper: marking distinct fresh identifiers while the recency set
is at or below its capacity of 500 simply appends them, for every pop
behaviour. -/
theorem foldl_markPlayed_fresh {α : Type} [DecidableEq α] (choose : List α → Nat) :
    ∀ (l acc : List α), (acc ++ l).Nodup → (acc ++ l).length ≤ 500 →
      List.foldl (markPlayed choose) acc l = acc ++ l := by
  intro l
  induction l with
  | nil =>
    intro acc _ _
    simp
  | cons x rest ih =>
    intro acc hnd hlen
    rw [List.foldl_cons]
    have hx : x ∉ acc := by
      rcases List.nodup_append.mp hnd with ⟨_, _, hdisj⟩
      intro hmem
      exact hdisj hmem (List.mem_cons_self x rest)
    have hstep : markPlayed choose acc x = acc ++ [x] := by
      simp only [markPlayed, hx, if_false]
      rw [if_neg]
      simp only [List.length_append, List.length_cons, List.length_nil] at hlen ⊢
      omega
    rw [hstep]
    have hassoc : (acc ++ [x]) ++ rest = acc ++ x :: rest := by simp
    rw [ih (acc ++ [x]) (by rw [hassoc]; exact hnd) (by rw [hassoc]; exact hlen)]
    exact hassoc

/-- C6 counterexample: marking the 501 distinct identifiers
`0, …, 500` under the allowed pop behaviour that removes the most
recently inserted element leaves exactly the identifiers `0, …, 499`:
500 identifiers remain, but the first-inserted identifier `0` is still
present and the evicted one is `500` — `set.pop()` removes an
arbitrary element, not the oldest, so the first-inserted identifier
need not be the one evicted. -/
theorem markPlayed_not_fifo :
    playedAfter501 = List.range 500 ∧
    playedAfter501.length = 500 ∧
    (0 : Nat) ∈ playedAfter501 ∧
    (500 : Nat) ∉ playedAfter501 := by
  have hfold : List.foldl (markPlayed chooseLast) [] (List.range 500) = List.range 500 := by
    have h := foldl_markPlayed_fresh chooseLast (List.range 500) []
    simpa using h (by simpa using List.nodup_range 500) (by simp)
  have hnot : (500 : Nat) ∉ List.range 500 := by simp
  have hstep : markPlayed chooseLast (List.range 500) 500 = List.range 500 := by
    simp only [markPlayed, hnot, if_false]
    rw [if_pos (by simp)]
    have hlen : (List.range 500 ++ [500]).length = 501 := by simp
    have hch : chooseLast (List.range 500 ++ [500]) % (List.range 500 ++ [500]).length = 500 := by
      simp [chooseLast]
    rw [hch]
    have := eraseIdx_concat (500 : Nat) (List.range 500)
    simpa using this
  have hmain : playedAfter501 = List.range 500 := by
    show List.foldl (markPlayed chooseLast) [] (List.range 501) = List.range 500
    rw [show (501 : Nat) = 500 + 1 from rfl, List.range_succ,
      List.foldl_append, hfold]
    simpa using hstep
  refine ⟨hmain, ?_, ?_, ?_⟩
  · rw [hmain]; simp
  · rw [hmain]; simp
  · rw [hmain]; simp

/-- C6 (amended): the recently-played set is bounded at capacity 500 —
after 501 distinct identifiers are marked played, exactly 500
identifiers remain — but the member evicted by `set.pop()` is an
arbitrary element of the set (whichever the pop behaviour `choose`
selects), not necessarily the first-inserted one. -/
theorem markPlayed_capacity {α : Type} [DecidableEq α] (choose : List α → Nat)
    (l : List α) (hnd : l.Nodup) (hlen : l.length = 501) :
    (List.foldl (markPlayed choose) [] l).length = 500 := by
  have hne : l ≠ [] := by
    intro h
    rw [h] at hlen
    simp at hlen
  obtain ⟨l0, a, rfl⟩ : ∃ l0 a, l = l0 ++ [a] :=
    ⟨l.dropLast, l.getLast hne, (List.dropLast_append_getLast hne).symm⟩
  have hl0 : l0.length = 500 := by
    simp only [List.length_append, List.length_cons, List.length_nil] at hlen
    omega
  have hnotmem : a ∉ l0 := by
    rcases List.nodup_append.mp hnd with ⟨_, _, hdisj⟩
    intro hmem
    exact hdisj hmem (List.mem_cons_self a [])
  have hfold : List.foldl (markPlayed choose) [] l0 = l0 := by
    have h := foldl_markPlayed_fresh choose l0 []
    simpa using h (by simpa using (List.nodup_append.mp hnd).1) (by simp [hl0])
  rw [List.foldl_append, hfold]
  have hlen1 : (l0 ++ [a]).length = 501 := by simp [hl0]
  have hstep : markPlayed choose l0 a =
      (l0 ++ [a]).eraseIdx (choose (l0 ++ [a]) % (l0 ++ [a]).length) := by
    simp only [markPlayed, hnotmem, if_false]
    rw [if_pos (by rw [hlen1]; omega)]
  simp only [List.foldl_cons, List.foldl_nil]
  rw [hstep]
  have hidx : choose (l0 ++ [a]) % (l0 ++ [a]).length < (l0 ++ [a]).length :=
    Nat.mod_lt _ (by rw [hlen1]; omega)
  have := List.length_eraseIdx_add_one hidx
  omega

/-- C6 witness: the capacity bound evaluated at the concrete
identifiers `0, …, 500` under the last-element pop behaviour. -/
theorem markPlayed_capacity_witness :
    (List.range 501).Nodup ∧ (List.range 501).length = 501 ∧
    (List.foldl (markPlayed chooseLast) [] (List.range 501)).length = 500 := by
  exact ⟨List.nodup_range 501, by simp,
    markPlayed_capacity chooseLast (List.range 501) (List.nodup_range 501) (by simp)⟩

/-- Helper: unfolding equation of `retryGo` for a successful
attempt. -/
theorem retryGo_succ_ok_true {maxRetries base : Nat} {outcome : Nat → Attempt}
    {rem i : Nat} {r : DownloadResult}
    (h : outcome i = Attempt.ok r) (hs : r.success = true) :
    retryGo maxRetries base outcome (rem + 1) i = (r, [0]) := by
  simp [retryGo, h, hs]

/-- Helper: unfolding equation of `retryGo` for a failed attempt that
returned a result. -/
theorem retryGo_succ_ok_false {maxRetries base : Nat} {outcome : Nat → Attempt}
    {rem i : Nat} {r : DownloadResult}
    (h : outcome i = Attempt.ok r) (hs : r.success = false) :
    retryGo maxRetries base outcome (rem + 1) i =
      ((retryGo maxRetries base outcome rem (i + 1)).1,
        ((if has503 r then 60 * (i + 1) else 0) +
          (if i + 1 < maxRetries then base * (i + 1) else 0)) ::
          (retryGo maxRetries base outcome rem (i + 1)).2) := by
  simp [retryGo, h, hs]

/-- Helper: unfolding equation of `retryGo` for an attempt that
raised. -/
theorem retryGo_succ_exn {maxRetries base : Nat} {outcome : Nat → Attempt}
    {rem i : Nat} {m : String} (h : outcome i = Attempt.exnRaised m) :
    retryGo maxRetries base outcome (rem + 1) i =
      ((retryGo maxRetries base outcome rem (i + 1)).1,
        (if i + 1 < maxRetries then base * (i + 1) else 0) ::
          (retryGo maxRetries base outcome rem (i + 1)).2) := by
  simp [retryGo, h]

/-- Helper: the retry loop makes at most as many attempts as it has
loop passes left. -/
theorem retryGo_length_le (maxRetries base : Nat) (outcome : Nat → Attempt) :
    ∀ (rem i : Nat), (retryGo maxRetries base outcome rem i).2.length ≤ rem := by
  intro rem
  induction rem with
  | zero =>
    intro i
    simp [retryGo]
  | succ rem ih =>
    intro i
    cases h : outcome i with
    | ok r =>
      cases hs : r.success with
      | true => simp [retryGo, h, hs]
      | false =>
        simp only [retryGo, h, hs, List.length_cons]
        exact Nat.succ_le_succ (ih (i + 1))
    | exnRaised m =>
      simp only [retryGo, h, List.length_cons]
      exact Nat.succ_le_succ (ih (i + 1))

/-- Helper: every sleep recorded after an attempt that is followed by
a further attempt is at least `base * (attempt index + 1)`. -/
theorem retryGo_sleep_ge (maxRetries base : Nat) (outcome : Nat → Attempt) :
    ∀ (rem i : Nat), i + rem = maxRetries →
      ∀ j, j + 1 < (retryGo maxRetries base outcome rem i).2.length →
        base * (i + j + 1) ≤ (retryGo maxRetries base outcome rem i).2.getD j 0 := by
  intro rem
  induction rem with
  | zero =>
    intro i _ j hj
    simp [retryGo] at hj
  | succ rem ih =>
    intro i hinv j hj
    cases h : outcome i with
    | ok r =>
      cases hs : r.success with
      | true =>
        rw [retryGo_succ_ok_true h hs] at hj
        simp at hj
      | false =>
        rw [retryGo_succ_ok_false h hs] at hj ⊢
        simp only [List.length_cons] at hj
        cases j with
        | zero =>
          have hbound := retryGo_length_le maxRetries base outcome rem (i + 1)
          have hlt : i + 1 < maxRetries := by omega
          simp only [List.getD_cons_zero]
          rw [if_pos hlt, show i + 0 + 1 = i + 1 by omega]
          exact Nat.le_add_left (base * (i + 1)) _
        | succ j =>
          have hrec := ih (i + 1) (by omega) j (by omega)
          simp only [List.getD_cons_succ]
          rw [show i + (j + 1) + 1 = i + 1 + j + 1 by omega]
          exact hrec
    | exnRaised m =>
      rw [retryGo_succ_exn h] at hj ⊢
      simp only [List.length_cons] at hj
      cases j with
      | zero =>
        have hbound := retryGo_length_le maxRetries base outcome rem (i + 1)
        have hlt : i + 1 < maxRetries := by omega
        simp only [List.getD_cons_zero]
        rw [if_pos hlt, show i + 0 + 1 = i + 1 by omega]
      | succ j =>
        have hrec := ih (i + 1) (by omega) j (by omega)
        simp only [List.getD_cons_succ]
        rw [show i + (j + 1) + 1 = i + 1 + j + 1 by omega]
        exact hrec

/-- Helper: when every attempt in range fails (result failure or a
caught exception), the loop runs all its passes — each exception
counted as an attempt — and returns the summary failure. -/
theorem retryGo_exhaust (maxRetries base : Nat) (outcome : Nat → Attempt) :
    ∀ (rem i : Nat), (∀ k, k < i + rem → attemptFailed (outcome k) = true) →
      (retryGo maxRetries base outcome rem i).1 = retryExhausted maxRetries ∧
      (retryGo maxRetries base outcome rem i).2.length = rem := by
  intro rem
  induction rem with
  | zero =>
    intro i _
    exact ⟨rfl, rfl⟩
  | succ rem ih =>
    intro i hall
    have hi : attemptFailed (outcome i) = true := hall i (by omega)
    cases h : outcome i with
    | ok r =>
      have hs : r.success = false := by
        rw [h] at hi
        simpa [attemptFailed] using hi
      obtain ⟨h1, h2⟩ := ih (i + 1) (fun k hk => hall k (by omega))
      exact ⟨by simp [retryGo, h, hs, h1], by simp [retryGo, h, hs, h2]⟩
    | exnRaised m =>
      obtain ⟨h1, h2⟩ := ih (i + 1) (fun k hk => hall k (by omega))
      exact ⟨by simp [retryGo, h, h1], by simp [retryGo, h, h2]⟩

/-- C4: `download_with_retry` makes at most `MAX_RETRIES` attempts;
between attempt `k` and attempt `k+1` (1-based) it sleeps at least
`base_delay * k` — also when the failure was rate-limited, where an
additional `60 * k` pause precedes it; an attempt that raises is
caught and counted like any failed attempt; and when every attempt
fails, the loop makes exactly `MAX_RETRIES` attempts and returns the
summary failure result (success flag down, summary error string)
instead of raising. -/
theorem downloadWithRetry_spec (maxRetries base : Nat) (outcome : Nat → Attempt) :
    (downloadWithRetry maxRetries base outcome).2.length ≤ maxRetries ∧
    (∀ j, j + 1 < (downloadWithRetry maxRetries base outcome).2.length →
      base * (j + 1) ≤ (downloadWithRetry maxRetries base outcome).2.getD j 0) ∧
    ((∀ i, i < maxRetries → attemptFailed (outcome i) = true) →
      (downloadWithRetry maxRetries base outcome).1 = retryExhausted maxRetries ∧
      (downloadWithRetry maxRetries base outcome).2.length = maxRetries) ∧
    (retryExhausted maxRetries).success = false ∧
    (retryExhausted maxRetries).error =
      some ("Не удалось скачать после " ++ toString maxRetries ++ " попыток.") := by
  refine ⟨retryGo_length_le maxRetries base outcome maxRetries 0, ?_, ?_, rfl, rfl⟩
  · intro j hj
    have h := retryGo_sleep_ge maxRetries base outcome maxRetries 0 (by omega) j hj
    simpa using h
  · intro hall
    exact retryGo_exhaust maxRetries base outcome maxRetries 0
      (fun k hk => hall k (by simpa using hk))

/-- C4 witness: with the repository's settings `MAX_RETRIES = 5` and
`RETRY_DELAY_S = 5`, an oracle on which every attempt raises yields
exactly 5 caught attempts, the summary failure, and a first-gap sleep
of at least `5 * 1` seconds. -/
theorem downloadWithRetry_spec_witness :
    (downloadWithRetry 5 5 exnOutcome).2.length ≤ 5 ∧
    (downloadWithRetry 5 5 exnOutcome).1 = retryExhausted 5 ∧
    (downloadWithRetry 5 5 exnOutcome).2.length = 5 ∧
    5 * (0 + 1) ≤ (downloadWithRetry 5 5 exnOutcome).2.getD 0 0 := by
  have h := downloadWithRetry_spec 5 5 exnOutcome
  have hex := h.2.2.1 (fun i _ => rfl)
  refine ⟨h.1, hex.1, hex.2, ?_⟩
  apply h.2.1
  rw [hex.2]
  omega

/-- C8: no track returned by a search has a non-positive duration or
one outside a supplied (truthy) duration bound, for every filter
configuration — including when no minimum-duration filter is
supplied.  The Internet Archive tier guarantees this by its explicit
`duration <= 0` and bound checks; the YouTube tier guarantees it
vacuously, because its result construction raises `TypeError`
(`models.TrackInfo` accepts no `view_count`/`like_count`) which the
enclosing `except` turns into an empty result list. -/
theorem search_duration_bounds :
    (∀ (minD maxD : Option Int) (docs : List IaDoc) (t : TrackInfo),
      t ∈ iaSearch minD maxD docs →
      0 < t.duration ∧
      (intTruthy minD = true → minD.getD 0 ≤ t.duration) ∧
      (intTruthy maxD = true → t.duration ≤ maxD.getD 0)) ∧
    (∀ (minD maxD minV minL : Option Int) (entries : List YtEntry) (t : TrackInfo),
      t ∈ ytSearch minD maxD minV minL entries →
      0 < t.duration ∧
      (intTruthy minD = true → minD.getD 0 ≤ t.duration) ∧
      (intTruthy maxD = true → t.duration ≤ maxD.getD 0)) := by
  constructor
  · intro minD maxD docs t ht
    simp only [iaSearch] at ht
    obtain ⟨doc, _, hc⟩ := List.mem_filterMap.mp ht
    simp only [iaConsider] at hc
    split at hc
    · exact absurd hc (by simp)
    · next hcond =>
      push_neg at hcond
      obtain ⟨h1, h2, h3⟩ := hcond
      simp only [Option.some.injEq] at hc
      have hdur : t.duration = doc.length := by rw [← hc]
      refine ⟨by rw [hdur]; omega, ?_, ?_⟩
      · intro hmin
        have := h2 hmin
        rw [hdur]
        omega
      · intro hmax
        have := h3 hmax
        rw [hdur]
        omega
  · intro minD maxD minV minL entries t ht
    have hnil : ytSearch minD maxD minV minL entries = [] := by
      simp [ytSearch]
    rw [hnil] at ht
    exact absurd ht (List.not_mem_nil t)

/-- C8 witness: the bounds evaluated on concrete searches: the
Internet Archive doc of length 240 passes a 60–1200 second window and
satisfies every bound, while the YouTube search returns the empty
list both for a well-formed entry and for the zero-duration entry
that passes its filters when no minimum-duration bound is supplied. -/
theorem search_duration_bounds_witness :
    iaTrackGood ∈ iaSearch (some 60) (some 1200) [iaDocGood] ∧
    0 < iaTrackGood.duration ∧
    (some (60 : Int)).getD 0 ≤ iaTrackGood.duration ∧
    iaTrackGood.duration ≤ (some (1200 : Int)).getD 0 ∧
    ytSearch (some 60) (some 1200) none none [ytEntryGood] = [] ∧
    ytSearch none none none none [zeroDurEntry] = [] := by
  have hia : iaTrackGood ∈ iaSearch (some 60) (some 1200) [iaDocGood] := by decide
  have h1 := search_duration_bounds.1 (some 60) (some 1200) [iaDocGood] iaTrackGood hia
  exact ⟨hia, h1.1, h1.2.1 rfl, h1.2.2 rfl, by decide, by decide⟩

end Newbot
